import Mathlib

/-!
Shallow embedding of `src/sonic/client.py` from xmonader/python-sonic-client.

Python strings are modelled as `List Char`; Python values that a response can
classify into (bool / int / str / list of str) are modelled by `PyResult`;
raised exceptions are modelled by `Except SonicError`.  Stateful methods on a
connection are modelled as explicit state-passing functions on `SonicConnection`
(the connection's mutable state, with the TCP stream modelled as a script
`incoming` of lines still to be read and a trace `written` of lines written).
-/

/-- Python exceptions raised by the client code.  `server` is
`SonicServerError` (carrying the message string it was constructed with),
`channel` is `ChannelError` (command, channel), `valueError` is `ValueError`
(raised by `_parse_protocol_version`, `_parse_buffer_size` and `int()`),
`keyError` is the `KeyError` from `ALL_CMDS[...]` / `set.remove`, and
`typeError` the `TypeError` from iterating a non-iterable. -/
inductive SonicError where
  | server (msg : List Char)
  | channel (cmd ch : List Char)
  | valueError
  | typeError
  | keyError
deriving DecidableEq

/-- A classified Python response value: `True`, an `int`, a `str`, or a
`list` of `str` (the result of `resp.split()[3:]`). -/
inductive PyResult where
  | bool (b : Bool)
  | int (n : Int)
  | str (s : List Char)
  | strList (l : List (List Char))
deriving DecidableEq

/-- Python truthiness of a `PyResult` (used by `if conn.ping():`). -/
def pyTruthy : PyResult → Bool
  | .bool b => b
  | .int n => n != 0
  | .str s => !s.isEmpty
  | .strList l => !l.isEmpty

/-- Python `==` between two classified values (`str == str` compares
contents, `bool`/`int` compare numerically, values of unrelated types are
unequal). -/
def pyEq : PyResult → PyResult → Bool
  | .str a, .str b => a == b
  | .bool a, .bool b => a == b
  | .int a, .int b => a == b
  | .bool a, .int b => (if a then (1 : Int) else 0) == b
  | .int a, .bool b => a == (if b then (1 : Int) else 0)
  | .strList a, .strList b => a == b
  | _, _ => false

deriving instance DecidableEq for Except

/-- The ASCII whitespace characters recognised by Python's `str.split()` /
`str.strip()` with no arguments (space, tab, LF, CR, vertical tab, form
feed; the embedding restricts to ASCII). -/
def isPyWs (c : Char) : Bool :=
  c == ' ' || c == '\t' || c == '\n' || c == '\r' || c == '\x0b' || c == '\x0c'

/-- Python `str.strip()` with no argument: drop leading and trailing
whitespace. -/
def pyStrip (l : List Char) : List Char :=
  ((l.dropWhile isPyWs).reverse.dropWhile isPyWs).reverse

/-- Worker for `splitWs`: `cur` is the (reversed) current in-progress token. -/
def splitWsGo : List Char → List Char → List (List Char)
  | cur, [] => if cur = [] then [] else [cur.reverse]
  | cur, c :: rest =>
    if isPyWs c then
      if cur = [] then splitWsGo [] rest
      else cur.reverse :: splitWsGo [] rest
    else splitWsGo (c :: cur) rest

/-- Python `str.split()` with no argument: split on runs of whitespace,
discarding empty tokens. -/
def splitWs (l : List Char) : List (List Char) := splitWsGo [] l

/-- Numeric value of a decimal digit character. -/
def digitVal (c : Char) : Nat := c.toNat - '0'.toNat

/-- Value of a decimal digit string (most significant digit first). -/
def digitsVal (l : List Char) : Nat :=
  l.foldl (fun acc c => acc * 10 + digitVal c) 0

/-- Python `int(str)`: strips surrounding whitespace, accepts an optional
sign followed by a non-empty run of decimal digits, and raises `ValueError`
(here: `none`) otherwise.  (Digit-group underscores are not modelled; no
input in this code base uses them.) -/
def pyInt (l : List Char) : Option Int :=
  let s := pyStrip l
  if s.head? = some '-' ∨ s.head? = some '+' then
    let ds := s.tail
    if ds ≠ [] ∧ ds.all Char.isDigit then
      some (if s.head? = some '-' then -(digitsVal ds : Int) else (digitsVal ds : Int))
    else none
  else
    if s ≠ [] ∧ s.all Char.isDigit then some ((digitsVal s : Int)) else none

/-- Python `needle in hay` for strings: substring containment. -/
def containsSub (needle : List Char) : List Char → Bool
  | [] => needle.isEmpty
  | c :: rest => needle.isPrefixOf (c :: rest) || containsSub needle rest

/-- One `\w` character of the regexes in `_parse_protocol_version` /
`_parse_buffer_size` (ASCII: alphanumeric or underscore). -/
def isWordChar (c : Char) : Bool := c.isAlphanum || c == '_'

/-- First match of the regex `key\((\w+)\)` in a string, scanning left to
right (the semantics of `re.findall(...)[0]`): find `key ++ "("`, take the
maximal non-empty run of word characters, and require `)` after it;
otherwise keep scanning. -/
def findParen (key : List Char) : List Char → Option (List Char)
  | [] => none
  | c :: rest =>
    let here := (key ++ ['(']).isPrefixOf (c :: rest)
    let after := (c :: rest).drop (key.length + 1)
    let w := after.takeWhile isWordChar
    if here ∧ w ≠ [] ∧ (after.drop w.length).head? = some ')' then some w
    else findParen key rest

/-! ### Protocol string constants (the string literals of `client.py`) -/

/-- The line "OK". -/
def okC : List Char := ['O', 'K']

/-- The line "PONG". -/
def pongC : List Char := ['P', 'O', 'N', 'G']

/-- The prefix "EVENT QUERY". -/
def eventQueryC : List Char := ['E', 'V', 'E', 'N', 'T', ' ', 'Q', 'U', 'E', 'R', 'Y']

/-- The prefix "EVENT SUGGEST". -/
def eventSuggestC : List Char :=
  ['E', 'V', 'E', 'N', 'T', ' ', 'S', 'U', 'G', 'G', 'E', 'S', 'T']

/-- The prefix "RESULT". -/
def resultC : List Char := ['R', 'E', 'S', 'U', 'L', 'T']

/-- The error prefix "ERR " (with trailing space, as in `is_error`). -/
def errC : List Char := ['E', 'R', 'R', ' ']

/-- The regex key "protocol" of `_parse_protocol_version`. -/
def protocolKeyC : List Char := ['p', 'r', 'o', 't', 'o', 'c', 'o', 'l']

/-- The regex key "buffer" of `_parse_buffer_size`. -/
def bufferKeyC : List Char := ['b', 'u', 'f', 'f', 'e', 'r']

/-- The greeting marker "CONNECTED" looked for by `connect`. -/
def connectedMarkC : List Char := ['C', 'O', 'N', 'N', 'E', 'C', 'T', 'E', 'D']

/-- The command verb "START". -/
def startCmdC : List Char := ['S', 'T', 'A', 'R', 'T']

/-- The command verb "PING". -/
def pingCmdC : List Char := ['P', 'I', 'N', 'G']

/-- The command verb "HELP". -/
def helpCmdC : List Char := ['H', 'E', 'L', 'P']

/-- The command verb "QUIT". -/
def quitCmdC : List Char := ['Q', 'U', 'I', 'T']

/-- The command verb "PUSH". -/
def pushCmdC : List Char := ['P', 'U', 'S', 'H']

/-- The command verb "POP". -/
def popCmdC : List Char := ['P', 'O', 'P']

/-- The command verb "COUNT". -/
def countCmdC : List Char := ['C', 'O', 'U', 'N', 'T']

/-- The command verb "FLUSHC". -/
def flushcCmdC : List Char := ['F', 'L', 'U', 'S', 'H', 'C']

/-- The command verb "FLUSHB". -/
def flushbCmdC : List Char := ['F', 'L', 'U', 'S', 'H', 'B']

/-- The command verb "FLUSHO". -/
def flushoCmdC : List Char := ['F', 'L', 'U', 'S', 'H', 'O']

/-- The command verb "QUERY". -/
def queryCmdC : List Char := ['Q', 'U', 'E', 'R', 'Y']

/-- The command verb "SUGGEST". -/
def suggestCmdC : List Char := ['S', 'U', 'G', 'G', 'E', 'S', 'T']

/-- The command verb "TRIGGER". -/
def triggerCmdC : List Char := ['T', 'R', 'I', 'G', 'G', 'E', 'R']

/-- The channel name "UNINITIALIZED". -/
def uninitializedC : List Char :=
  ['U', 'N', 'I', 'N', 'I', 'T', 'I', 'A', 'L', 'I', 'Z', 'E', 'D']

/-- The channel name "ingest". -/
def ingestC : List Char := ['i', 'n', 'g', 'e', 's', 't']

/-- The channel name "search". -/
def searchC : List Char := ['s', 'e', 'a', 'r', 'c', 'h']

/-- The channel name "control". -/
def controlC : List Char := ['c', 'o', 'n', 't', 'r', 'o', 'l']

/-- The modifier label "LIMIT". -/
def limitKeyC : List Char := ['L', 'I', 'M', 'I', 'T']

/-- The modifier label "OFFSET". -/
def offsetKeyC : List Char := ['O', 'F', 'F', 'S', 'E', 'T']

/-- The modifier label "LANG". -/
def langKeyC : List Char := ['L', 'A', 'N', 'G']

/-! ### Wire codec (`quote_text`, `is_error`, `raise_for_error`, parsers,
`pythonify_result`) -/

/-- `text.replace('"', '\\"')`: a single-character pattern with a
two-character replacement, applied left to right. -/
def escQuote : List Char → List Char
  | [] => []
  | c :: rest => if c = '"' then '\\' :: '"' :: escQuote rest else c :: escQuote rest

/-- `text.replace('\r\n', ' ')`: left-to-right non-overlapping replacement
of the two-character pattern CR LF by one space. -/
def replaceCRLF : List Char → List Char
  | [] => []
  | [c] => [c]
  | c :: d :: rest =>
    if c = '\r' ∧ d = '\n' then ' ' :: replaceCRLF rest
    else c :: replaceCRLF (d :: rest)

/-- `text.replace('\n', ' ')`: every LF becomes one space. -/
def replaceLF (l : List Char) : List Char :=
  l.map fun c => if c = '\n' then ' ' else c

/-- `quote_text(text)` from `client.py`: `""` (the empty string) when
`text is None`, otherwise
`'"' + text.replace('"', '\\"').replace('\r\n', ' ').replace('\n', ' ') + '"'`. -/
def quote_text : Option (List Char) → List Char
  | none => []
  | some text => '"' :: (replaceLF (replaceCRLF (escQuote text)) ++ ['"'])

/-- Python `" ".join(args)`. -/
def joinSpace : List (List Char) → List Char
  | [] => []
  | [a] => a
  | a :: rest => a ++ ' ' :: joinSpace rest

/-- `is_error(response)`: true iff the response starts with `ERR `. -/
def is_error (response : List Char) : Bool :=
  errC.isPrefixOf response

/-- `raise_for_error(response)`: raises `SonicServerError(response)` when
`is_error(response)`, else returns `response` unchanged.  Note the
exception is constructed with the whole `response` string. -/
def raise_for_error (response : List Char) : Except SonicError (List Char) :=
  if is_error response then .error (.server response) else .ok response

/-- `_parse_protocol_version(text)`: `re.findall("protocol\((\w+)\)", text)`
and take the first match; `ValueError` when there is none.  `re.findall`
on a non-`str` argument raises `TypeError`. -/
def _parse_protocol_version (text : PyResult) : Except SonicError (List Char) :=
  match text with
  | .str s =>
    match findParen protocolKeyC s with
    | some w => .ok w
    | none => .error .valueError
  | _ => .error .typeError

/-- `_parse_buffer_size(text)`: `re.findall("buffer\((\w+)\)", text)` and
take the first match; `ValueError` when there is none. -/
def _parse_buffer_size (text : PyResult) : Except SonicError (List Char) :=
  match text with
  | .str s =>
    match findParen bufferKeyC s with
    | some w => .ok w
    | none => .error .valueError
  | _ => .error .typeError

/-- `pythonify_result(resp)` from `client.py`:
`"OK"`/`"PONG"` become `True`; a line starting with `"EVENT QUERY"` or
`"EVENT SUGGEST"` becomes `resp.split()[3:]`; a line starting with
`"RESULT"` becomes `int(resp.split()[-1])` (whose `int()` can raise
`ValueError`, modelled as `none`); anything else is returned unchanged. -/
def pythonify_result (resp : List Char) : Option PyResult :=
  if resp = okC ∨ resp = pongC then some (PyResult.bool true)
  else if eventQueryC.isPrefixOf resp ∨ eventSuggestC.isPrefixOf resp then
    some (PyResult.strList ((splitWs resp).drop 3))
  else if resultC.isPrefixOf resp then
    match (splitWs resp).getLast? with
    | some lastTok => (pyInt lastTok).map PyResult.int
    | none => none
  else some (PyResult.str resp)

/-! ### Command catalog -/

/-- `COMMON_CMDS` from `client.py`. -/
def COMMON_CMDS : List (List Char) := [startCmdC, pingCmdC, helpCmdC, quitCmdC]

/-- `ALL_CMDS` from `client.py`, as a lookup in the dict keyed by channel
name; `none` models the `KeyError` for a key the dict does not have. -/
def ALL_CMDS (channel : List Char) : Option (List (List Char)) :=
  if channel = uninitializedC then some COMMON_CMDS
  else if channel = ingestC then
    some (COMMON_CMDS ++ [pushCmdC, popCmdC, countCmdC, flushcCmdC, flushbCmdC, flushoCmdC])
  else if channel = searchC then some (COMMON_CMDS ++ [queryCmdC, suggestCmdC])
  else if channel = controlC then some (COMMON_CMDS ++ [triggerCmdC])
  else none

/-! ### SonicConnection -/

/-- The state of one `SonicConnection`.  The TCP stream is modelled by
`incoming` (the script of lines the server will deliver, each line
including its trailing newline exactly as `readline` returns it) and
`written` (the trace of strings written to the socket).  `closed` records
whether `close()` has released the socket and stream resources;
`connected`, `protocol` and `bufsize` are the attributes set during
`connect()` (all unset before the handshake). -/
structure SonicConnection where
  incoming : List (List Char)
  written : List (List Char)
  raw : Bool
  channel : List Char
  _password : List Char
  connected : Bool
  closed : Bool
  protocol : Option (List Char)
  bufsize : Option (List Char)
deriving DecidableEq

/-- `self._reader.readline()`: pop the next line of the script; at end of
stream a closed/exhausted file object yields the empty string. -/
def SonicConnection.readline (st : SonicConnection) : List Char × SonicConnection :=
  match st.incoming with
  | [] => ([], st)
  | l :: rest => (l, { st with incoming := rest })

/-- `close()`: releases reader, writer and socket (each guarded against
being already released, so this is idempotent); modelled by the `closed`
flag. -/
def SonicConnection.close (st : SonicConnection) : SonicConnection :=
  { st with closed := true }

/-- `_format_command(cmd, *args)`: `cmd + " " + " ".join(args) + "\n"`. -/
def _format_command (cmd : List Char) (args : List (List Char)) : List Char :=
  cmd ++ ' ' :: (joinSpace args ++ ['\n'])

/-- `_get_response()`:
`resp = raise_for_error(self._reader.readline()).strip()`, then the raw
string when `self.raw`, else `pythonify_result(resp)` (whose only failure,
`int()` on a malformed RESULT line, raises `ValueError`). -/
def SonicConnection._get_response (st : SonicConnection) :
    Except SonicError PyResult × SonicConnection :=
  let (line, st1) := st.readline
  match raise_for_error line with
  | .error e => (.error e, st1)
  | .ok r =>
    let resp := pyStrip r
    if st1.raw then (.ok (.str resp), st1)
    else
      match pythonify_result resp with
      | some v => (.ok v, st1)
      | none => (.error .valueError, st1)

/-- `_execute_command(cmd, *args)`: look the channel up in `ALL_CMDS`
(`KeyError` when absent), raise `ChannelError` when `cmd` is not in the
channel's command list, else write the formatted command and read one
response. -/
def SonicConnection._execute_command (st : SonicConnection) (cmd : List Char)
    (args : List (List Char)) : Except SonicError PyResult × SonicConnection :=
  match ALL_CMDS st.channel with
  | none => (.error .keyError, st)
  | some cmds =>
    if cmd ∈ cmds then
      let st1 := { st with written := st.written ++ [_format_command cmd args] }
      st1._get_response
    else (.error (.channel cmd st.channel), st)

/-- `ping()`: `res = self._execute_command("PING")`, then
`return res == "PONG" if self.raw else res`. -/
def SonicConnection.ping (st : SonicConnection) :
    Except SonicError PyResult × SonicConnection :=
  match st._execute_command pingCmdC [] with
  | (.error e, st1) => (.error e, st1)
  | (.ok res, st1) =>
    if st1.raw then (.ok (.bool (pyEq res (.str pongC))), st1)
    else (.ok res, st1)

/-- `connect()`: read the greeting line (setting `connected` when it
contains `CONNECTED`), send `START <channel> <password>`, parse the
protocol version and buffer size out of the reply, then return `ping()`.
There is no exception handler: any failure propagates and no cleanup
runs. -/
def SonicConnection.connect (st : SonicConnection) :
    Except SonicError PyResult × SonicConnection :=
  let (resp0, st1) := st.readline
  let st2 := if containsSub connectedMarkC resp0 then { st1 with connected := true } else st1
  match st2._execute_command startCmdC [st2.channel, st2._password] with
  | (.error e, st3) => (.error e, st3)
  | (.ok resp, st3) =>
    match _parse_protocol_version resp with
    | .error e => (.error e, st3)
    | .ok proto =>
      let st4 := { st3 with protocol := some proto }
      match _parse_buffer_size resp with
      | .error e => (.error e, st4)
      | .ok bufs =>
        let st5 := { st4 with bufsize := some bufs }
        st5.ping

/-! ### ConnectionPool -/

/-- The pool's two collections: the in-use set (a duplicate-free list) and
the idle FIFO queue.  Connections are identified by a `Nat` id; their
states live in a separate map so that `release`/`close` can mutate them. -/
structure ConnectionPool where
  _inuse_connections : List Nat
  _available_connections : List Nat
deriving DecidableEq

/-- Point-update of the connection-state map. -/
def updateConn (conns : Nat → SonicConnection) (i : Nat) (v : SonicConnection) :
    Nat → SonicConnection :=
  fun j => if j = i then v else conns j

/-- `_make_connection()`: construct a connection and run `connect()`,
discarding its return value; an exception from `connect` propagates. -/
def ConnectionPool._make_connection (cs : SonicConnection) :
    Except SonicError Unit × SonicConnection :=
  match cs.connect with
  | (.error e, cs1) => (.error e, cs1)
  | (.ok _, cs1) => (.ok (), cs1)

/-- `get_connection()`: take the front of the idle queue when non-empty,
else make (and connect) a new connection with the fresh id `fresh`; either
way add the connection to the in-use set. -/
def ConnectionPool.get_connection (p : ConnectionPool) (conns : Nat → SonicConnection)
    (fresh : Nat) : Except SonicError Nat × ConnectionPool × (Nat → SonicConnection) :=
  match p._available_connections with
  | c :: rest =>
    (.ok c,
     { p with
       _available_connections := rest,
       _inuse_connections :=
         if c ∈ p._inuse_connections then p._inuse_connections
         else c :: p._inuse_connections },
     conns)
  | [] =>
    match ConnectionPool._make_connection (conns fresh) with
    | (.error e, cs1) => (.error e, p, updateConn conns fresh cs1)
    | (.ok _, cs1) =>
      (.ok fresh,
       { p with
         _inuse_connections :=
           if fresh ∈ p._inuse_connections then p._inuse_connections
           else fresh :: p._inuse_connections },
       updateConn conns fresh cs1)

/-- `release(conn)`: `self._inuse_connections.remove(conn)` (a `KeyError`
when absent), then `if conn.ping(): self._available_connections.put_nowait(conn)`.
A falsy ping result silently drops the connection (no `close()` call); a
ping exception propagates (again with no `close()` call). -/
def ConnectionPool.release (p : ConnectionPool) (conn : Nat) (cs : SonicConnection) :
    Except SonicError Unit × ConnectionPool × SonicConnection :=
  if conn ∈ p._inuse_connections then
    let p1 := { p with _inuse_connections := p._inuse_connections.erase conn }
    match cs.ping with
    | (.error e, cs1) => (.error e, p1, cs1)
    | (.ok res, cs1) =>
      if pyTruthy res then
        (.ok (), { p1 with _available_connections := p1._available_connections ++ [conn] }, cs1)
      else (.ok (), p1, cs1)
  else (.error .keyError, p, cs)

/-- `ConnectionPool.close()`:
`for con in itertools.chain(self._inuse_connections, self._available_connections): con.close()`.
`itertools.chain` consumes the in-use set first, closing each member, and
then calls `iter()` on `self._available_connections` — which is a
`queue.Queue`, and `queue.Queue` is not iterable, so a `TypeError` is
raised at that point.  The idle connections are never closed, and neither
collection is cleared. -/
def ConnectionPool.close (p : ConnectionPool) (conns : Nat → SonicConnection) :
    Except SonicError Unit × ConnectionPool × (Nat → SonicConnection) :=
  (.error .typeError, p,
   fun i => if i ∈ p._inuse_connections then SonicConnection.close (conns i) else conns i)

/-! ### SonicClient / SearchClient -/

/-- `SonicClient._execute_command_async(cmd, *args)`: acquire a connection
(setting its `raw` flag from the client), run `_execute_command` and then a
second `_get_response`, and in a `finally` block release the connection;
an exception raised inside the `finally` (by the release ping) supersedes
the pending result or exception. -/
def SonicClient._execute_command_async (p : ConnectionPool)
    (conns : Nat → SonicConnection) (fresh : Nat) (raw : Bool)
    (cmd : List Char) (args : List (List Char)) :
    Except SonicError PyResult × ConnectionPool × (Nat → SonicConnection) :=
  match p.get_connection conns fresh with
  | (.error e, p1, conns1) => (.error e, p1, conns1)
  | (.ok cid, p1, conns1) =>
    let cs0 := { conns1 cid with raw := raw }
    match cs0._execute_command cmd args with
    | (.error e, cs1) =>
      match p1.release cid cs1 with
      | (.error e2, p2, cs2) => (.error e2, p2, updateConn conns1 cid cs2)
      | (.ok _, p2, cs2) => (.error e, p2, updateConn conns1 cid cs2)
    | (.ok _, cs1) =>
      match cs1._get_response with
      | (.error e, cs2) =>
        match p1.release cid cs2 with
        | (.error e2, p2, cs3) => (.error e2, p2, updateConn conns1 cid cs3)
        | (.ok _, p2, cs3) => (.error e, p2, updateConn conns1 cid cs3)
      | (.ok resp, cs2) =>
        match p1.release cid cs2 with
        | (.error e2, p2, cs3) => (.error e2, p2, updateConn conns1 cid cs3)
        | (.ok _, p2, cs3) => (.ok resp, p2, updateConn conns1 cid cs3)

/-- Decimal rendering of a Python `int` (`str(n)` / `"{}".format(n)`). -/
def intStr (n : Int) : List Char :=
  if n < 0 then '-' :: Nat.toDigits 10 n.natAbs else Nat.toDigits 10 n.toNat

/-- `"LABEL({})".format(v) if v else ''` for an optional integer modifier
(`0` and `None` are both falsy). -/
def fmtOptInt (label : List Char) (v : Option Int) : List Char :=
  match v with
  | some n => if n ≠ 0 then label ++ '(' :: (intStr n ++ [')']) else []
  | none => []

/-- `"LABEL({})".format(v) if v else ''` for an optional string modifier
(the empty string and `None` are both falsy). -/
def fmtOptStr (label : List Char) (v : Option (List Char)) : List Char :=
  match v with
  | some s => if s ≠ [] then label ++ '(' :: (s ++ [')']) else []
  | none => []

/-- `SearchClient.query(collection, bucket, terms, limit, offset, lang)`:
format the optional modifiers, quote the terms, and delegate to
`_execute_command_async('QUERY', collection, bucket, terms, limit, offset, lang)`. -/
def SearchClient.query (p : ConnectionPool) (conns : Nat → SonicConnection)
    (fresh : Nat) (raw : Bool) (collection bucket : List Char)
    (terms : Option (List Char)) (limit offset : Option Int)
    (lang : Option (List Char)) :
    Except SonicError PyResult × ConnectionPool × (Nat → SonicConnection) :=
  let limitS := fmtOptInt limitKeyC limit
  let langS := fmtOptStr langKeyC lang
  let offsetS := fmtOptInt offsetKeyC offset
  let termsS := quote_text terms
  SonicClient._execute_command_async p conns fresh raw queryCmdC
    [collection, bucket, termsS, limitS, offsetS, langS]


/-! ### Helper lemmas: quoting (`quote_text`) -/

/-- `replace('\n', ' ')` leaves no LF in its output. -/
theorem lf_not_mem_replaceLF (l : List Char) : '\n' ∉ replaceLF l := by
  intro h
  rcases List.mem_map.mp h with ⟨c, -, hc⟩
  by_cases hcn : c = '\n'
  · subst hcn; simp at hc
  · rw [if_neg hcn] at hc; exact hcn hc

/-- A CR survives `replace('\n', ' ')`. -/
theorem cr_mem_replaceLF {l : List Char} (h : '\r' ∈ l) : '\r' ∈ replaceLF l :=
  List.mem_map.mpr ⟨'\r', h, by decide⟩

/-- `escQuote` distributes over append. -/
theorem escQuote_append (a b : List Char) :
    escQuote (a ++ b) = escQuote a ++ escQuote b := by
  induction a with
  | nil => rfl
  | cons c rest ih => by_cases hc : c = '"' <;> simp [escQuote, hc, ih]

/-- `escQuote` keeps a CR head in place. -/
theorem escQuote_cr (post : List Char) :
    escQuote ('\r' :: post) = '\r' :: escQuote post := by
  simp [escQuote]

/-- `escQuote` cannot create an LF at the head. -/
theorem escQuote_head_ne_lf {post : List Char} (h : post.head? ≠ some '\n') :
    (escQuote post).head? ≠ some '\n' := by
  cases post with
  | nil => simp [escQuote]
  | cons c rest =>
    by_cases hc : c = '"'
    · subst hc; simp [escQuote]
    · simp only [escQuote, if_neg hc, List.head?_cons]
      simpa using h

/-- A CR whose successor is not LF survives `replace('\r\n', ' ')`:
left-to-right scanning can pair that CR with nothing. -/
theorem cr_mem_replaceCRLF : ∀ (u v : List Char), v.head? ≠ some '\n' →
    '\r' ∈ replaceCRLF (u ++ '\r' :: v)
  | [], [], _ => by simp [replaceCRLF]
  | [], d :: rest, hv => by
    have hd : ¬('\r' = '\r' ∧ d = '\n') := by
      rintro ⟨-, rfl⟩; exact hv rfl
    show '\r' ∈ (if '\r' = '\r' ∧ d = '\n' then ' ' :: replaceCRLF rest
                 else '\r' :: replaceCRLF (d :: rest))
    rw [if_neg hd]
    exact List.mem_cons_self _ _
  | [a], v, hv => by
    have hrec := cr_mem_replaceCRLF [] v hv
    have hcond : ¬(a = '\r' ∧ '\r' = '\n') := by rintro ⟨-, h⟩; exact absurd h (by decide)
    show '\r' ∈ (if a = '\r' ∧ '\r' = '\n' then ' ' :: replaceCRLF v
                 else a :: replaceCRLF ('\r' :: v))
    rw [if_neg hcond]
    exact List.mem_cons_of_mem a hrec
  | a :: b :: u', v, hv => by
    show '\r' ∈ (if a = '\r' ∧ b = '\n' then ' ' :: replaceCRLF (u' ++ '\r' :: v)
                 else a :: replaceCRLF (b :: (u' ++ '\r' :: v)))
    by_cases hab : a = '\r' ∧ b = '\n'
    · rw [if_pos hab]
      exact List.mem_cons_of_mem _ (cr_mem_replaceCRLF u' v hv)
    · rw [if_neg hab]
      exact List.mem_cons_of_mem _ (cr_mem_replaceCRLF (b :: u') v hv)

/-! ### Helper lemmas: `split()` / `strip()` / `int()` -/

/-- A decimal digit is not Python whitespace. -/
theorem isDigit_not_ws (c : Char) (h : c.isDigit = true) : isPyWs c = false := by
  by_contra hw
  have hw' : isPyWs c = true := by simpa using hw
  unfold isPyWs at hw'
  simp only [Bool.or_eq_true, beq_iff_eq] at hw'
  rcases hw' with ((((rfl | rfl) | rfl) | rfl) | rfl) | rfl <;> exact absurd h (by decide)

/-- `dropWhile` is the identity on whitespace-free strings. -/
theorem dropWhile_no_ws {l : List Char} (h : ∀ c ∈ l, isPyWs c = false) :
    l.dropWhile isPyWs = l := by
  cases l with
  | nil => rfl
  | cons c rest => simp [List.dropWhile_cons, h c (List.mem_cons_self _ _)]

/-- `strip()` is the identity on whitespace-free strings. -/
theorem pyStrip_no_ws {l : List Char} (h : ∀ c ∈ l, isPyWs c = false) :
    pyStrip l = l := by
  unfold pyStrip
  rw [dropWhile_no_ws h,
    dropWhile_no_ws (fun c hc => h c (List.mem_reverse.mp hc)),
    List.reverse_reverse]

/-- `splitWsGo` on a whitespace-free remainder closes the current token. -/
theorem splitWsGo_no_ws (l : List Char) :
    ∀ cur : List Char, (∀ c ∈ l, isPyWs c = false) →
      splitWsGo cur l =
        if cur.reverse ++ l = [] then [] else [cur.reverse ++ l] := by
  induction l with
  | nil => intro cur _; simp [splitWsGo]
  | cons c rest ih =>
    intro cur h
    have hc : isPyWs c = false := h c (List.mem_cons_self _ _)
    have hrest : ∀ x ∈ rest, isPyWs x = false :=
      fun x hx => h x (List.mem_cons_of_mem _ hx)
    simp only [splitWsGo, hc, Bool.false_eq_true, if_false, ih (c :: cur) hrest]
    have h2 : (c :: cur).reverse ++ rest = cur.reverse ++ c :: rest := by
      simp
    rw [h2]

/-- `int()` on a non-empty all-digit string yields its decimal value. -/
theorem pyInt_digits (ds : List Char) (hne : ds ≠ []) (hd : ds.all Char.isDigit = true) :
    pyInt ds = some ((digitsVal ds : Int)) := by
  have hnws : ∀ c ∈ ds, isPyWs c = false :=
    fun c hc => isDigit_not_ws c (List.all_eq_true.mp hd c hc)
  obtain ⟨c, rest, rfl⟩ : ∃ c rest, ds = c :: rest := by
    cases ds with
    | nil => exact absurd rfl hne
    | cons c rest => exact ⟨c, rest, rfl⟩
  have hc : c.isDigit = true := List.all_eq_true.mp hd c (List.mem_cons_self _ _)
  have h1 : ¬((c :: rest).head? = some '-' ∨ (c :: rest).head? = some '+') := by
    rintro (h | h) <;>
      · simp only [List.head?_cons, Option.some.injEq] at h
        subst h
        exact absurd hc (by decide)
  simp only [pyInt, pyStrip_no_ws hnws, h1, if_false]
  rw [if_pos ⟨hne, hd⟩]

/-! ### Helper lemmas: connection state -/

/-- `readline` only consumes the head of the incoming script. -/
theorem readline_snd (st : SonicConnection) :
    st.readline.2 = { st with incoming := st.incoming.tail } := by
  rcases st with ⟨inc, w, r, ch, pw, co, cl, pr, bu⟩
  cases inc <;> rfl

/-- `_get_response` only consumes the head of the incoming script. -/
theorem get_response_snd (st : SonicConnection) :
    st._get_response.2 = { st with incoming := st.incoming.tail } := by
  rcases h : st.readline with ⟨line, st1⟩
  have h2 : st1 = { st with incoming := st.incoming.tail } := by
    have h3 := readline_snd st
    rw [h] at h3
    exact h3
  unfold SonicConnection._get_response
  rw [h]
  dsimp only
  split
  · exact h2
  · split
    · exact h2
    · split
      · exact h2
      · exact h2

/-- Every channel name present in `ALL_CMDS` allows `PING`. -/
theorem ping_mem_all_cmds {ch : List Char} {cmds : List (List Char)}
    (h : ALL_CMDS ch = some cmds) : pingCmdC ∈ cmds := by
  unfold ALL_CMDS at h
  split at h
  · injection h with h; subst h; decide
  · split at h
    · injection h with h; subst h; decide
    · split at h
      · injection h with h; subst h; decide
      · split at h
        · injection h with h; subst h; decide
        · exact Option.noConfusion h

/-- `_execute_command` on a permitted command appends exactly one formatted
line to the write trace and consumes exactly one incoming line. -/
theorem exec_snd {st : SonicConnection} {cmds : List (List Char)}
    (h : ALL_CMDS st.channel = some cmds) {cmd : List Char} (hm : cmd ∈ cmds)
    (args : List (List Char)) :
    (st._execute_command cmd args).2 =
      { st with incoming := st.incoming.tail,
                written := st.written ++ [_format_command cmd args] } := by
  unfold SonicConnection._execute_command
  rw [h]
  dsimp only
  rw [if_pos hm, get_response_snd]

/-- `_execute_command` never touches the `closed` flag. -/
theorem exec_closed (st : SonicConnection) (cmd : List Char)
    (args : List (List Char)) :
    (st._execute_command cmd args).2.closed = st.closed := by
  unfold SonicConnection._execute_command
  split
  · rfl
  · split
    · rw [get_response_snd]
    · rfl

/-- `ping` leaves the final state of its inner `_execute_command`. -/
theorem ping_snd_eq_exec_snd (st : SonicConnection) :
    st.ping.2 = (st._execute_command pingCmdC []).2 := by
  unfold SonicConnection.ping
  rcases st._execute_command pingCmdC [] with ⟨r, st1⟩
  cases r
  · rfl
  · dsimp only
    split <;> rfl

/-- On a valid channel, `ping` writes exactly the line `PING \n` and
consumes one incoming line. -/
theorem ping_snd {st : SonicConnection} {cmds : List (List Char)}
    (h : ALL_CMDS st.channel = some cmds) :
    st.ping.2 =
      { st with incoming := st.incoming.tail,
                written := st.written ++ [_format_command pingCmdC []] } := by
  rw [ping_snd_eq_exec_snd, exec_snd h (ping_mem_all_cmds h)]

/-- `ping` never touches the `closed` flag. -/
theorem ping_closed (st : SonicConnection) : st.ping.2.closed = st.closed := by
  rw [ping_snd_eq_exec_snd, exec_closed]

/-- `connect` never touches the `closed` flag: no branch of `connect`
invokes `close()`, on success or on failure. -/
theorem connect_closed (st : SonicConnection) : st.connect.2.closed = st.closed := by
  rcases h0 : st.readline with ⟨resp0, st1⟩
  have h3 : st1 = { st with incoming := st.incoming.tail } := by
    have h4 := readline_snd st
    rw [h0] at h4
    exact h4
  have hc1 : st1.closed = st.closed := by rw [h3]
  unfold SonicConnection.connect
  rw [h0]
  dsimp only
  by_cases hcs : containsSub connectedMarkC resp0 = true
  · simp only [hcs, if_true]
    rcases h1 : SonicConnection._execute_command { st1 with connected := true } startCmdC
        [SonicConnection.channel { st1 with connected := true },
         SonicConnection._password { st1 with connected := true }] with ⟨r, st3⟩
    have hc3 : st3.closed = st.closed := by
      have h4 := exec_closed { st1 with connected := true } startCmdC
        [SonicConnection.channel { st1 with connected := true },
         SonicConnection._password { st1 with connected := true }]
      rw [h1] at h4
      exact h4.trans hc1
    cases r with
    | error e => exact hc3
    | ok resp =>
      dsimp only
      split
      · exact hc3
      · split
        · exact hc3
        · rw [ping_closed]; exact hc3
  · simp only [hcs, Bool.false_eq_true, if_false]
    rcases h1 : SonicConnection._execute_command st1 startCmdC
        [st1.channel, st1._password] with ⟨r, st3⟩
    have hc3 : st3.closed = st.closed := by
      have h4 := exec_closed st1 startCmdC [st1.channel, st1._password]
      rw [h1] at h4
      exact h4.trans hc1
    cases r with
    | error e => exact hc3
    | ok resp =>
      dsimp only
      split
      · exact hc3
      · split
        · exact hc3
        · rw [ping_closed]; exact hc3

/-! ### Concrete connection states used by individual claims -/

/-- A search-channel connection about to read the line "ERR invalid\n". -/
def c1conn : SonicConnection :=
  { incoming := [['E', 'R', 'R', ' ', 'i', 'n', 'v', 'a', 'l', 'i', 'd', '\n']],
    written := [], raw := false, channel := searchC, _password := [],
    connected := false, closed := false, protocol := none, bufsize := none }

/-- A search-channel connection about to read the line "ERR x\n". -/
def c1wconn : SonicConnection :=
  { incoming := [['E', 'R', 'R', ' ', 'x', '\n']],
    written := [], raw := false, channel := searchC, _password := [],
    connected := false, closed := false, protocol := none, bufsize := none }

/-- An idle fresh search-channel connection with an empty incoming script. -/
def c7conn : SonicConnection :=
  { incoming := [], written := [], raw := false, channel := searchC, _password := [],
    connected := false, closed := false, protocol := none, bufsize := none }

/-- A family of open connections with empty scripts (for the pool claims). -/
def c8conns : Nat → SonicConnection := fun _ =>
  { incoming := [], written := [], raw := false, channel := searchC, _password := [],
    connected := false, closed := false, protocol := none, bufsize := none }

/-! ### Claim theorems -/

/-- Claim C4: `quote_text` returns the empty string for a null/absent
input; for every text the embedded quotes are escaped and CR LF / bare LF
sequences collapse to one space (shown on a concrete instance, which is the
definition applied); and for every input containing an LF the quoted output
contains no raw newline character. -/
theorem claim_C4 :
    quote_text none = [] ∧
    (∀ t : List Char, '\n' ∈ t → '\n' ∉ quote_text (some t)) ∧
    quote_text (some ['a', '"', 'b', '\r', '\n', 'c', '\n', 'd'])
      = ['"', 'a', '\\', '"', 'b', ' ', 'c', ' ', 'd', '"'] := by
  refine ⟨rfl, ?_, by decide⟩
  intro t _ hmem
  simp only [quote_text] at hmem
  rcases List.mem_cons.mp hmem with h | h
  · exact absurd h (by decide)
  · rcases List.mem_append.mp h with h | h
    · exact lf_not_mem_replaceLF _ h
    · exact absurd h (by decide)

/-- Witness for C4 at the concrete input "a\nb". -/
theorem claim_C4_wit :
    '\n' ∈ ['a', '\n', 'b'] ∧ '\n' ∉ quote_text (some ['a', '\n', 'b']) :=
  ⟨by decide, claim_C4.2.1 ['a', '\n', 'b'] (by decide)⟩

/-- Claim C9: `quote_text` only normalizes CR LF pairs and bare LF
characters: a CR that is not immediately followed by LF survives into the
quoted output. -/
theorem claim_C9 (t pre post : List Char) (ht : t = pre ++ '\r' :: post)
    (hp : post.head? ≠ some '\n') : '\r' ∈ quote_text (some t) := by
  subst ht
  have h1 : escQuote (pre ++ '\r' :: post)
      = escQuote pre ++ '\r' :: escQuote post := by
    rw [escQuote_append, escQuote_cr]
  have h2 : '\r' ∈ replaceCRLF (escQuote (pre ++ '\r' :: post)) := by
    rw [h1]
    exact cr_mem_replaceCRLF _ _ (escQuote_head_ne_lf hp)
  have h3 : '\r' ∈ replaceLF (replaceCRLF (escQuote (pre ++ '\r' :: post))) :=
    cr_mem_replaceLF h2
  simp only [quote_text]
  exact List.mem_cons_of_mem _ (List.mem_append.mpr (Or.inl h3))

/-- Witness for C9 at the concrete input "a\rb". -/
theorem claim_C9_wit :
    (['a', '\r', 'b'] : List Char) = ['a'] ++ '\r' :: ['b'] ∧
    '\r' ∈ quote_text (some ['a', '\r', 'b']) :=
  ⟨by decide, claim_C9 ['a', '\r', 'b'] ['a'] ['b'] (by decide) (by decide)⟩

/-- Claim C7: a command verb not in the channel's catalog makes
`_execute_command` raise `ChannelError` with the state returned unchanged —
nothing is appended to the write trace and nothing is read; in particular
`TRIGGER` on a search-channel connection. -/
theorem claim_C7 :
    (∀ (st : SonicConnection) (cmd : List Char) (args : List (List Char))
       (cmds : List (List Char)), ALL_CMDS st.channel = some cmds → cmd ∉ cmds →
       st._execute_command cmd args = (.error (.channel cmd st.channel), st)) ∧
    (∀ (st : SonicConnection) (args : List (List Char)), st.channel = searchC →
       st._execute_command triggerCmdC args
         = (.error (.channel triggerCmdC st.channel), st)) := by
  have hsearch : ALL_CMDS searchC = some (COMMON_CMDS ++ [queryCmdC, suggestCmdC]) := by
    rfl
  constructor
  · intro st cmd args cmds h hm
    unfold SonicConnection._execute_command
    rw [h]
    dsimp only
    rw [if_neg hm]
  · intro st args hch
    unfold SonicConnection._execute_command
    rw [hch, hsearch]
    dsimp only
    rw [if_neg (by decide : triggerCmdC ∉ COMMON_CMDS ++ [queryCmdC, suggestCmdC])]

/-- Witness for C7: TRIGGER on a concrete search-channel connection. -/
theorem claim_C7_wit :
    SonicConnection._execute_command c7conn triggerCmdC []
      = (.error (.channel triggerCmdC c7conn.channel), c7conn) :=
  claim_C7.2 c7conn [] rfl

/-- Counterexample for claim C1: for the response line "ERR invalid\n" the
raised SonicServerError carries the entire line — including the "ERR "
prefix and the trailing newline — not the remainder "invalid". -/
theorem claim_C1_cex :
    (SonicConnection._get_response c1conn).1
      = .error (.server ['E', 'R', 'R', ' ', 'i', 'n', 'v', 'a', 'l', 'i', 'd', '\n']) ∧
    (['E', 'R', 'R', ' ', 'i', 'n', 'v', 'a', 'l', 'i', 'd', '\n'] : List Char)
      ≠ ['i', 'n', 'v', 'a', 'l', 'i', 'd'] :=
  ⟨rfl, by decide⟩

/-- Claim C1 (amended): for every response line starting with "ERR ",
`_get_response` raises `SonicServerError` rather than returning the line as
data (so the error is never converted into a falsy success value), and the
error carries the whole line — "ERR " prefix and trailing newline
included — as its message text. -/
theorem claim_C1 (st : SonicConnection) (line : List Char) (rest : List (List Char))
    (hin : st.incoming = line :: rest) (herr : is_error line = true) :
    st._get_response = (.error (.server line), { st with incoming := rest }) := by
  unfold SonicConnection._get_response SonicConnection.readline
  rw [hin]
  dsimp only
  unfold raise_for_error
  rw [if_pos herr]

/-- Witness for C1 at the concrete line "ERR x\n". -/
theorem claim_C1_wit :
    SonicConnection._get_response c1wconn
      = (.error (.server ['E', 'R', 'R', ' ', 'x', '\n']),
         { c1wconn with incoming := [] }) :=
  claim_C1 c1wconn ['E', 'R', 'R', ' ', 'x', '\n'] [] rfl (by decide)

/-- Claim C8 (the code bug): `ConnectionPool.close()` on a pool tracking
in-use connection 0 and idle connection 1 closes connection 0, then raises
`TypeError` (iterating the `queue.Queue` of idle connections), so the idle
connection is never closed and neither collection is cleared. -/
theorem claim_C8 :
    (ConnectionPool.close ⟨[0], [1]⟩ c8conns).1 = .error .typeError ∧
    ((ConnectionPool.close ⟨[0], [1]⟩ c8conns).2.2 0).closed = true ∧
    ((ConnectionPool.close ⟨[0], [1]⟩ c8conns).2.2 1).closed = false ∧
    (ConnectionPool.close ⟨[0], [1]⟩ c8conns).2.1
      = (⟨[0], [1]⟩ : ConnectionPool) :=
  ⟨rfl, by decide, by decide, rfl⟩

/-- Claim C10: `ping` yields a boolean in both response modes rather than
honouring the raw-mode unparsed-line contract: with `raw = True` it returns
the comparison of the stripped response line against "PONG", and with
`raw = False` it returns the classified response unchanged, which for a
PONG reply is the boolean True. -/
theorem claim_C10 :
    (∀ (st : SonicConnection) (line : List Char) (rest : List (List Char))
       (cmds : List (List Char)),
       st.raw = true → st.incoming = line :: rest →
       ALL_CMDS st.channel = some cmds → is_error line = false →
       (st.ping).1 = .ok (.bool (pyStrip line == pongC))) ∧
    (∀ (st : SonicConnection) (rest : List (List Char)) (cmds : List (List Char)),
       st.raw = false → st.incoming = (pongC ++ ['\n']) :: rest →
       ALL_CMDS st.channel = some cmds →
       (st.ping).1 = .ok (.bool true)) := by
  constructor
  · intro st line rest cmds hraw hin hch herr
    simp only [SonicConnection.ping, SonicConnection._execute_command, hch,
      ping_mem_all_cmds hch, if_true, SonicConnection._get_response,
      SonicConnection.readline, hin, raise_for_error, herr, Bool.false_eq_true,
      if_false, hraw, pyEq]
  · intro st rest cmds hraw hin hch
    have h1 : is_error (pongC ++ ['\n']) = false := by decide
    have h2 : pyStrip (pongC ++ ['\n']) = pongC := by decide
    have h3 : pythonify_result pongC = some (.bool true) := by decide
    simp only [SonicConnection.ping, SonicConnection._execute_command, hch,
      ping_mem_all_cmds hch, if_true, SonicConnection._get_response,
      SonicConnection.readline, hin, raise_for_error, h1, Bool.false_eq_true,
      if_false, hraw, h2, h3]

/-- A raw-mode search-channel connection about to read "PONG\n". -/
def c10conn : SonicConnection :=
  { incoming := [['P', 'O', 'N', 'G', '\n']], written := [], raw := true,
    channel := searchC, _password := [], connected := false, closed := false,
    protocol := none, bufsize := none }

/-- Witness for C10: a raw-mode ping against a PONG reply. -/
theorem claim_C10_wit :
    (SonicConnection.ping c10conn).1
      = .ok (.bool (pyStrip ['P', 'O', 'N', 'G', '\n'] == pongC)) :=
  claim_C10.1 c10conn ['P', 'O', 'N', 'G', '\n'] [] (COMMON_CMDS ++ [queryCmdC, suggestCmdC])
    rfl rfl rfl (by decide)

/-- A connection whose handshake reply "STARTED search protocol(1)\n" lacks
the buffer field, so `connect` fails while parsing it. -/
def c3conn : SonicConnection :=
  { incoming := [['h', 'i', '\n'],
                 ['S', 'T', 'A', 'R', 'T', 'E', 'D', ' ', 's', 'e', 'a', 'r', 'c', 'h',
                  ' ', 'p', 'r', 'o', 't', 'o', 'c', 'o', 'l', '(', '1', ')', '\n']],
    written := [], raw := false, channel := searchC, _password := ['p', 'w'],
    connected := false, closed := false, protocol := none, bufsize := none }

/-- Counterexample for claim C3: when the STARTED reply lacks the
`buffer(...)` field, `connect` propagates the `ValueError`, yet the
connection is NOT transitioned to the closed state — its resources are
still live. -/
theorem claim_C3_cex :
    (SonicConnection.connect c3conn).1 = .error .valueError ∧
    (SonicConnection.connect c3conn).2.closed = false :=
  ⟨by decide, by decide⟩

/-- A connection whose handshake reply "OK\n" classifies to the boolean
True, so `_parse_protocol_version` fails with `TypeError`. -/
def c3pconn : SonicConnection :=
  { incoming := [['h', 'i', '\n'], ['O', 'K', '\n']],
    written := [], raw := false, channel := searchC, _password := ['p', 'w'],
    connected := false, closed := false, protocol := none, bufsize := none }

/-- Claim C3 (amended): whatever happens during `connect()` — the greeting
read, the START handshake, the STARTED field parsing or the confirming
PING, failing or succeeding — the originating error propagates to the
caller (shown concretely for a failing STARTED parse), but the connection
never transitions to the closed state: `connect` contains no cleanup, so
`closed` is exactly what it was before the call and the socket/stream
resources stay live. -/
theorem claim_C3 :
    (∀ st : SonicConnection, (SonicConnection.connect st).2.closed = st.closed) ∧
    (SonicConnection.connect c3pconn).1 = .error .typeError ∧
    (SonicConnection.connect c3pconn).2.closed = c3pconn.closed :=
  ⟨connect_closed, by decide, by decide⟩

/-- `split()` of "RESULT" followed by a space and a whitespace-free token
gives exactly the two tokens. -/
theorem splitWs_result (ds : List Char) (hne : ds ≠ [])
    (hnws : ∀ c ∈ ds, isPyWs c = false) :
    splitWs (resultC ++ ' ' :: ds) = [resultC, ds] := by
  have h1 : splitWsGo [] ds = [ds] := by
    rw [splitWsGo_no_ws ds [] hnws]
    simp [hne]
  simp [splitWs, resultC, splitWsGo, isPyWs, h1]

/-- Claim C5: response classification — "OK" and "PONG" map to the
boolean-true sentinel; "RESULT <n>" maps to the integer n; every line
beginning "EVENT QUERY" or "EVENT SUGGEST" maps to the whitespace-separated
tokens after the first three (shown also on the concrete spec example); and
any other non-error line is returned unchanged. -/
theorem claim_C5 :
    pythonify_result okC = some (.bool true) ∧
    pythonify_result pongC = some (.bool true) ∧
    (∀ ds : List Char, ds ≠ [] → ds.all Char.isDigit = true →
       pythonify_result (resultC ++ ' ' :: ds) = some (.int ((digitsVal ds : Int)))) ∧
    (∀ resp : List Char, eventQueryC.isPrefixOf resp = true →
       pythonify_result resp = some (.strList ((splitWs resp).drop 3))) ∧
    (∀ resp : List Char, eventSuggestC.isPrefixOf resp = true →
       pythonify_result resp = some (.strList ((splitWs resp).drop 3))) ∧
    pythonify_result
        (eventQueryC ++ [' ', 'a', 'b', 'c', 'd', ' ', 'i', 'd', '1', ' ', 'i', 'd',
                         '2', ' ', 'i', 'd', '3'])
      = some (.strList [['i', 'd', '1'], ['i', 'd', '2'], ['i', 'd', '3']]) ∧
    (∀ resp : List Char, resp ≠ okC → resp ≠ pongC →
       eventQueryC.isPrefixOf resp = false → eventSuggestC.isPrefixOf resp = false →
       resultC.isPrefixOf resp = false → is_error resp = false →
       pythonify_result resp = some (.str resp)) := by
  refine ⟨by decide, by decide, ?_, ?_, ?_, by decide, ?_⟩
  · intro ds hne hd
    have hnws : ∀ c ∈ ds, isPyWs c = false :=
      fun c hc => isDigit_not_ws c (List.all_eq_true.mp hd c hc)
    have hnot1 : ¬(resultC ++ ' ' :: ds = okC ∨ resultC ++ ' ' :: ds = pongC) := by
      rintro (h | h) <;> simp [resultC, okC, pongC] at h
    have hnot2 : eventQueryC.isPrefixOf (resultC ++ ' ' :: ds) = false := by
      simp [eventQueryC, resultC, List.isPrefixOf]
    have hnot3 : eventSuggestC.isPrefixOf (resultC ++ ' ' :: ds) = false := by
      simp [eventSuggestC, resultC, List.isPrefixOf]
    have hpre : resultC.isPrefixOf (resultC ++ ' ' :: ds) = true := by
      rw [List.isPrefixOf_iff_prefix]
      exact List.prefix_append _ _
    simp only [pythonify_result, hnot1, if_false, hnot2, hnot3, Bool.false_eq_true,
      or_self, hpre, if_true, splitWs_result ds hne hnws]
    simp [pyInt_digits ds hne hd]
  · intro resp h
    rw [List.isPrefixOf_iff_prefix] at h
    obtain ⟨t, ht⟩ := h
    subst ht
    have hnot1 : ¬(eventQueryC ++ t = okC ∨ eventQueryC ++ t = pongC) := by
      rintro (h | h) <;> simp [eventQueryC, okC, pongC] at h
    have hpre : eventQueryC.isPrefixOf (eventQueryC ++ t) = true := by
      rw [List.isPrefixOf_iff_prefix]
      exact List.prefix_append _ _
    simp only [pythonify_result, hnot1, if_false, hpre, true_or, if_true]
  · intro resp h
    rw [List.isPrefixOf_iff_prefix] at h
    obtain ⟨t, ht⟩ := h
    subst ht
    have hnot1 : ¬(eventSuggestC ++ t = okC ∨ eventSuggestC ++ t = pongC) := by
      rintro (h | h) <;> simp [eventSuggestC, okC, pongC] at h
    have hpre : eventSuggestC.isPrefixOf (eventSuggestC ++ t) = true := by
      rw [List.isPrefixOf_iff_prefix]
      exact List.prefix_append _ _
    simp only [pythonify_result, hnot1, if_false, hpre, or_true, if_true]
  · intro resp h1 h2 h3 h4 h5 h6
    simp only [pythonify_result, h1, h2, or_self, if_false, h3, h4, h5,
      Bool.false_eq_true, or_self, if_false]

/-- Witness for C5: the RESULT branch at "RESULT 42" and the unchanged
branch at "PENDING xk9". -/
theorem claim_C5_wit :
    pythonify_result (resultC ++ ' ' :: ['4', '2']) = some (.int ((digitsVal ['4', '2'] : Int))) ∧
    pythonify_result ['P', 'E', 'N', 'D', 'I', 'N', 'G', ' ', 'x', 'k', '9']
      = some (.str ['P', 'E', 'N', 'D', 'I', 'N', 'G', ' ', 'x', 'k', '9']) :=
  ⟨claim_C5.2.2.1 ['4', '2'] (by decide) (by decide),
   claim_C5.2.2.2.2.2.2 ['P', 'E', 'N', 'D', 'I', 'N', 'G', ' ', 'x', 'k', '9']
     (by decide) (by decide) (by decide) (by decide) (by decide) (by decide)⟩

/-- A search-channel connection whose ping probe will fail: the stream is
at end-of-file, so the probe reads "" which classifies to a falsy value. -/
def c2conn : SonicConnection :=
  { incoming := [], written := [], raw := false, channel := searchC, _password := [],
    connected := false, closed := false, protocol := none, bufsize := none }

/-- A search-channel connection whose ping probe will succeed ("PONG\n"). -/
def c2wconn : SonicConnection :=
  { incoming := [['P', 'O', 'N', 'G', '\n']], written := [], raw := false,
    channel := searchC, _password := [], connected := false, closed := false,
    protocol := none, bufsize := none }

/-- Counterexample for claim C2: releasing connection 0 whose liveness
probe fails (the probe reads end-of-stream, classifying to the falsy "")
completes without closing the connection — `closed` is still false — even
though the claim requires the failing connection to be closed. -/
theorem claim_C2_cex :
    (SonicConnection.ping c2conn).1 = .ok (.str []) ∧
    pyTruthy (.str []) = false ∧
    (ConnectionPool.release ⟨[0], []⟩ 0 c2conn).1 = .ok () ∧
    (ConnectionPool.release ⟨[0], []⟩ 0 c2conn).2.2.closed = false :=
  ⟨rfl, rfl, rfl, rfl⟩

/-- Claim C2 (amended): `release(conn)` removes `conn` from the in-use set
and issues a PING liveness probe (one `PING \n` line is written); if the
probe succeeds `conn` is appended to the idle queue; if the probe returns
falsy, `conn` is discarded — never placed in idle and never returned by a
subsequent `get_connection` — but it is NOT closed (`closed` is
unchanged); if the probe raises, the error propagates and `conn` is
likewise not placed in idle and not closed. -/
theorem claim_C2 (p : ConnectionPool) (conn : Nat) (cs : SonicConnection)
    (cmds : List (List Char))
    (hnd : p._inuse_connections.Nodup)
    (hmem : conn ∈ p._inuse_connections)
    (hnav : conn ∉ p._available_connections)
    (hch : ALL_CMDS cs.channel = some cmds) :
    conn ∉ (ConnectionPool.release p conn cs).2.1._inuse_connections ∧
    (ConnectionPool.release p conn cs).2.2.written
      = cs.written ++ [_format_command pingCmdC []] ∧
    (ConnectionPool.release p conn cs).2.2.closed = cs.closed ∧
    (∀ res cs1, cs.ping = (.ok res, cs1) → pyTruthy res = true →
       (ConnectionPool.release p conn cs).2.1._available_connections
         = p._available_connections ++ [conn]) ∧
    (∀ res cs1, cs.ping = (.ok res, cs1) → pyTruthy res = false →
       conn ∉ (ConnectionPool.release p conn cs).2.1._available_connections ∧
       (∀ (conns2 : Nat → SonicConnection) (fresh : Nat), fresh ≠ conn →
          (ConnectionPool.get_connection
              (ConnectionPool.release p conn cs).2.1 conns2 fresh).1 ≠ .ok conn)) ∧
    (∀ e cs1, cs.ping = (.error e, cs1) →
       (ConnectionPool.release p conn cs).1 = .error e ∧
       conn ∉ (ConnectionPool.release p conn cs).2.1._available_connections) := by
  obtain ⟨inuse, avail⟩ := p
  dsimp only at hnd hmem hnav ⊢
  have herase : conn ∉ inuse.erase conn := by
    intro h
    exact ((List.Nodup.mem_erase_iff hnd).mp h).1 rfl
  rcases hp : cs.ping with ⟨r, cs1⟩
  have hping := ping_snd hch
  rw [hp] at hping
  have hw : cs1.written = cs.written ++ [_format_command pingCmdC []] := by
    have h := congrArg SonicConnection.written hping
    exact h
  have hcl : cs1.closed = cs.closed := by
    have h := congrArg SonicConnection.closed hping
    exact h
  unfold ConnectionPool.release
  rw [if_pos hmem, hp]
  dsimp only
  cases r with
  | error e =>
    dsimp only
    refine ⟨herase, hw, hcl, ?_, ?_, ?_⟩
    · intro res cs2 heq _
      exact absurd heq (by simp)
    · intro res cs2 heq
      exact absurd heq (by simp)
    · intro e2 cs2 heq
      injection heq with h1 h2
      injection h1 with h3
      exact ⟨by rw [h3], hnav⟩
  | ok res0 =>
    dsimp only
    by_cases ht : pyTruthy res0 = true
    · rw [if_pos ht]
      refine ⟨herase, hw, hcl, ?_, ?_, ?_⟩
      · intro res cs2 heq _
        rfl
      · intro res cs2 heq htr
        injection heq with h1 h2
        injection h1 with h3
        rw [← h3] at htr
        rw [ht] at htr
        exact absurd htr (by decide)
      · intro e2 cs2 heq
        exact absurd heq (by simp)
    · rw [if_neg ht]
      refine ⟨herase, hw, hcl, ?_, ?_, ?_⟩
      · intro res cs2 heq htr
        injection heq with h1 h2
        injection h1 with h3
        rw [← h3] at htr
        exact absurd htr ht
      · intro res cs2 heq htr
        refine ⟨hnav, ?_⟩
        intro conns2 fresh hfr
        unfold ConnectionPool.get_connection
        cases avail with
        | nil =>
          dsimp only
          rcases ConnectionPool._make_connection (conns2 fresh) with ⟨rr, csr⟩
          cases rr with
          | error e => simp
          | ok u =>
            dsimp only
            intro hcontra
            injection hcontra with h4
            exact hfr h4
        | cons c rest =>
          dsimp only
          intro hcontra
          injection hcontra with h4
          exact hnav (h4 ▸ List.mem_cons_self _ _)
      · intro e2 cs2 heq
        exact absurd heq (by simp)

/-- Witness for C2: releasing connection 1 (probe succeeds on "PONG\n")
removes it from in-use and logs exactly one PING line. -/
theorem claim_C2_wit :
    1 ∉ (ConnectionPool.release ⟨[1], []⟩ 1 c2wconn).2.1._inuse_connections ∧
    (ConnectionPool.release ⟨[1], []⟩ 1 c2wconn).2.2.written
      = c2wconn.written ++ [_format_command pingCmdC []] :=
  ⟨(claim_C2 ⟨[1], []⟩ 1 c2wconn (COMMON_CMDS ++ [queryCmdC, suggestCmdC])
      (by decide) (by decide) (by decide) rfl).1,
   (claim_C2 ⟨[1], []⟩ 1 c2wconn (COMMON_CMDS ++ [queryCmdC, suggestCmdC])
      (by decide) (by decide) (by decide) rfl).2.1⟩

/-- Connections scripted with the async QUERY exchange of the spec example:
"PENDING xk9" then "EVENT QUERY xk9 obj-1 obj-2". -/
def c6conns : Nat → SonicConnection := fun _ =>
  { incoming := [['P', 'E', 'N', 'D', 'I', 'N', 'G', ' ', 'x', 'k', '9', '\n'],
                 ['E', 'V', 'E', 'N', 'T', ' ', 'Q', 'U', 'E', 'R', 'Y', ' ', 'x', 'k',
                  '9', ' ', 'o', 'b', 'j', '-', '1', ' ', 'o', 'b', 'j', '-', '2', '\n']],
    written := [], raw := false, channel := searchC, _password := ['p'],
    connected := false, closed := false, protocol := none, bufsize := none }

/-- Connections scripted with two generic reply lines "A\n" and "B\n". -/
def c6wconns : Nat → SonicConnection := fun _ =>
  { incoming := [['A', '\n'], ['B', '\n']], written := [], raw := false,
    channel := searchC, _password := [], connected := false, closed := false,
    protocol := none, bufsize := none }

/-- Claim C6: `_execute_command_async` performs a second blocking read
after the first (acknowledgment) line and returns the classification of
that second line as the command's result, with both lines consumed; and,
concretely, a `query` on a connection receiving "PENDING xk9" then
"EVENT QUERY xk9 obj-1 obj-2" returns ["obj-1", "obj-2"], having put a
single QUERY line on the wire (the trailing PING line is the pool's
release probe). -/
theorem claim_C6 :
    (∀ (conns : Nat → SonicConnection) (cid fresh : Nat) (cmd : List Char)
       (args : List (List Char)) (l1 l2 : List Char) (v1 v2 : PyResult)
       (cmds : List (List Char)),
       (conns cid).incoming = [l1, l2] →
       ALL_CMDS (conns cid).channel = some cmds → cmd ∈ cmds →
       is_error l1 = false → pythonify_result (pyStrip l1) = some v1 →
       is_error l2 = false → pythonify_result (pyStrip l2) = some v2 →
       (SonicClient._execute_command_async ⟨[], [cid]⟩ conns fresh false cmd args).1
         = .ok v2 ∧
       ((SonicClient._execute_command_async ⟨[], [cid]⟩ conns fresh false cmd args).2.2
           cid).incoming = []) ∧
    (SearchClient.query ⟨[], [0]⟩ c6conns 5 false ['c', 'o', 'l'] ['b', 'u', 'c', 'k']
        (some ['t', 'e', 'r', 'm']) none none none).1
      = .ok (.strList [['o', 'b', 'j', '-', '1'], ['o', 'b', 'j', '-', '2']]) ∧
    ((SearchClient.query ⟨[], [0]⟩ c6conns 5 false ['c', 'o', 'l'] ['b', 'u', 'c', 'k']
        (some ['t', 'e', 'r', 'm']) none none none).2.2 0).written
      = [['Q', 'U', 'E', 'R', 'Y', ' ', 'c', 'o', 'l', ' ', 'b', 'u', 'c', 'k', ' ',
          '"', 't', 'e', 'r', 'm', '"', ' ', ' ', ' ', '\n'],
         ['P', 'I', 'N', 'G', ' ', '\n']] := by
  refine ⟨?_, by decide, by decide⟩
  intro conns cid fresh cmd args l1 l2 v1 v2 cmds hin hch hcm herr1 hp1 herr2 hp2
  have hping : pingCmdC ∈ cmds := ping_mem_all_cmds hch
  have hiserr : is_error ([] : List Char) = false := by decide
  have hstrip : pyStrip ([] : List Char) = [] := by decide
  have hpyth : pythonify_result ([] : List Char) = some (.str []) := by decide
  refine ⟨?_, ?_⟩ <;>
    simp only [SonicClient._execute_command_async, ConnectionPool.get_connection,
      SonicConnection._execute_command, SonicConnection._get_response,
      SonicConnection.readline, SonicConnection.ping, ConnectionPool.release,
      ConnectionPool._make_connection, raise_for_error, updateConn,
      hin, hch, hcm, hping, herr1, hp1, herr2, hp2, hiserr, hstrip, hpyth,
      pyTruthy, List.isEmpty, Bool.false_eq_true, if_false, if_true,
      List.mem_singleton, List.erase_cons_head, List.mem_cons, List.not_mem_nil,
      or_false, if_pos, ite_true, ite_false, Bool.not_false, Bool.not_true]

/-- Witness for C6: a SUGGEST on a connection scripted with "A\n" then
"B\n" returns the classification of the second line. -/
theorem claim_C6_wit :
    (SonicClient._execute_command_async ⟨[], [3]⟩ c6wconns 7 false suggestCmdC []).1
      = .ok (.str ['B']) :=
  (claim_C6.1 c6wconns 3 7 suggestCmdC [] ['A', '\n'] ['B', '\n'] (.str ['A'])
      (.str ['B']) (COMMON_CMDS ++ [queryCmdC, suggestCmdC]) rfl rfl (by decide)
      (by decide) (by decide) (by decide) (by decide)).1
